import Mathlib

/-!
Shallow embedding of the LocalAI Explorer discovery server
(`core/explorer/discovery.go`) and proofs about its behaviour.

Go maps are embedded as association lists over `String` keys with
first-match lookup; map assignment replaces any previous binding and
map deletion removes it.  A `nil` Go map is embedded as `none` in an
`Option`-wrapped map wherever the source can actually hold a nil map
(the `failures` field, which the constructor never initializes): in Go,
reading or deleting on a nil map is fine but assigning to it panics,
and the embedding mirrors that by returning `none` (panic) from the
operations that assign.

External collaborators that are not part of this repository snapshot
(the token database, the p2p node, `NodeData` decoding, the marker
constants) are modelled from the spec, each with a doc comment saying
so.
-/

namespace Explorer

/-- First-match lookup in an association list (Go map read). -/
def mapFind {β : Type} : List (String × β) → String → Option β
  | [], _ => none
  | (k', v) :: t, k => if k' = k then some v else mapFind t k

/-- Remove every binding of a key (Go `delete`). -/
def mapErase {β : Type} : List (String × β) → String → List (String × β)
  | [], _ => []
  | (k', v) :: t, k => if k' = k then mapErase t k else (k', v) :: mapErase t k

/-- Replace the binding of a key (Go map assignment). -/
def mapInsert {β : Type} (m : List (String × β)) (k : String) (v : β) : List (String × β) :=
  (k, v) :: mapErase m k

/-! ## Markers and external data (modelled from the spec) -/

/-- Modelled from the spec: the well-known worker marker constant
(`p2p.WorkerID`, not part of this source snapshot); the spec gives the
example literal `"WORKER_ID"`. -/
def WorkerID : String := "WORKER_ID"

/-- Modelled from the spec: the well-known federated marker constant
(`p2p.FederatedID`, not part of this source snapshot); the spec gives
the example literal `"FEDERATED_ID"`. -/
def FederatedID : String := "FEDERATED_ID"

/-- Modelled from the spec: a decoded `p2p.NodeData` presence record
exposes an identifier and an online flag (`IsOnline`). -/
structure NodeData where
  ID : String
  online : Bool
deriving DecidableEq, Repr

/-- Modelled from the spec: `IsOnline` reads the record's online flag. -/
def NodeData.IsOnline (nd : NodeData) : Bool := nd.online

/-- Modelled from the spec: a raw ledger value either fails to decode as
`NodeData` (`malformed`) or decodes to a record. -/
inductive RawValue where
  | malformed
  | node (nd : NodeData)
deriving DecidableEq, Repr

/-- Modelled from the spec: `Unmarshal` on a raw value; decode failure
is a recoverable, silently-skippable condition. -/
def unmarshal : RawValue → Option NodeData
  | .malformed => none
  | .node nd => some nd

/-! ## Ledger scanner (`retrieveNetworkData`) -/

/-- Fields `Workers`, `Type` and `NetworkID` of a cluster, as in the source. -/
structure ClusterData where
  Workers : List String
  «Type» : String
  NetworkID : String
deriving DecidableEq, Repr

/-- Boolean substring test on character lists (Go `strings.Contains`). -/
def charsContain (pat : List Char) : List Char → Bool
  | [] => pat.isEmpty
  | c :: t => pat.isPrefixOf (c :: t) || charsContain pat t

/-- Embeds Go `strings.Contains s pat`. -/
def strContains (s pat : String) : Bool := charsContain pat.toList s.toList

/-- The `isWorkerCluster` condition from the source:
`d == p2p.WorkerID || (strings.Contains(d, "_") && strings.Contains(d, p2p.WorkerID))`. -/
def isWorkerCluster (d : String) : Bool :=
  d == WorkerID || (strContains d "_" && strContains d WorkerID)

/-- The `isFederatedCluster` condition from the source. -/
def isFederatedCluster (d : String) : Bool :=
  d == FederatedID || (strContains d "_" && strContains d FederatedID)

/-- The `switch` in `retrieveNetworkData`: the cluster type assigned to a
ledger key, `none` when the key is not scanned (`toScanForWorkers` stays
false). The worker case is listed first, so it wins when both match. -/
def classifyKey (d : String) : Option String :=
  if isWorkerCluster d then some "worker"
  else if isFederatedCluster d then some "federated"
  else none

/-- Computes `cd.NetworkID`: mirrors
`if strings.Contains(d, "_") { cd.NetworkID = strings.Split(d, "_")[0] }`;
`strings.Split(d, "_")[0]` is the prefix of `d` before its first `_`
(the whole string when there is none, but this branch only runs when a
`_` is present), and the zero value `""` is kept otherwise. -/
def keyNetworkID (d : String) : String :=
  if strContains d "_" then String.mk (d.toList.takeWhile (fun c => c ≠ '_')) else ""

/-- One iteration of the `DATA` loop: skip undecodable values, and for
an online record set `atLeastOneWorker` and append the identifier. -/
def workerStep (acc : Bool × List String) (v : RawValue) : Bool × List String :=
  match unmarshal v with
  | none => acc
  | some nd => if nd.IsOnline then (true, acc.2 ++ [nd.ID]) else acc

/-- The `DATA` loop: fold over the raw values of one key, tracking
`atLeastOneWorker` and the accumulated `cd.Workers` in value order. -/
def collectWorkers (vals : List RawValue) : Bool × List String :=
  vals.foldl workerStep (false, [])

/-- The body of the `LEDGER` loop for one key: the `ClusterData` stored
into `clusters[d]`, or `none` when the key is unclassified or no value
decoded as online. -/
def scanKey (d : String) (vals : List RawValue) : Option ClusterData :=
  match classifyKey d with
  | none => none
  | some ty =>
    let res := collectWorkers vals
    if res.1 then some { Workers := res.2, «Type» := ty, NetworkID := keyNetworkID d } else none

/-- One sampling round of `retrieveNetworkData`: fold the current
block's storage (`key → raw values`) into the `clusters` map, assigning
`clusters[d]` for every key retained by `scanKey`. -/
def scanRound (storage : List (String × List RawValue)) (clusters : List (String × ClusterData)) :
    List (String × ClusterData) :=
  storage.foldl
    (fun cs kv =>
      match scanKey kv.1 kv.2 with
      | none => cs
      | some cd => mapInsert cs kv.1 cd)
    clusters

/-- Embeds `retrieveNetworkData`, with the environment supplying the sequence
of storage snapshots sampled before the deadline fired; the flushed
channel contents are the final `clusters` map's entries. -/
def retrieveNetworkData (rounds : List (List (String × List RawValue))) : List ClusterData :=
  (rounds.foldl (fun cs st => scanRound st cs) []).map (·.2)

/-- The identifiers of the values of one key that decode to an online
record, in value order. -/
def onlineIDs (vals : List RawValue) : List String :=
  vals.filterMap (fun v => (unmarshal v).bind (fun nd => if nd.IsOnline then some nd.ID else none))

/-! ## Discovery server state and operations -/

structure Network where
  Clusters : List ClusterData
deriving DecidableEq, Repr

structure NetworkState where
  Networks : List (String × Network)
deriving DecidableEq, Repr

/-- Modelled from the spec: the Token Store (`*Database`, external to
this source snapshot) supplies the token list and deletes a token. -/
structure Database where
  tokens : List String
deriving DecidableEq, Repr

/-- Modelled from the spec: `ListTokens() → sequence of Token`. -/
def Database.TokenList (db : Database) : List String := db.tokens

/-- Modelled from the spec: `Delete(token)` removes the token from the store. -/
def Database.Delete (db : Database) (token : String) : Database :=
  ⟨db.tokens.filter (fun t => t ≠ token)⟩

/-- The server struct. `failures` is `Option`-wrapped because the Go
field `failures map[string]int` can be nil: `none` is the nil map. -/
structure DiscoveryServer where
  database : Database
  networkState : NetworkState
  connectionTime : Int
  failures : Option (List (String × Int))
  errorThreshold : Int
deriving DecidableEq, Repr

/-- Embeds `NewDiscoveryServer`: the source's struct literal sets `database`,
`connectionTime`, `networkState` and `errorThreshold` but omits the
`failures` field, which therefore stays at its zero value, the nil map
(`none`). `connectionTime` is in nanoseconds (Go `time.Duration`). -/
def NewDiscoveryServer (db : Database) (dur : Int) (failureThreshold : Int) : DiscoveryServer :=
  let dur := if dur = 0 then 50 * 1000000000 else dur
  let failureThreshold := if failureThreshold = 0 then 3 else failureThreshold
  { database := db
    connectionTime := dur
    networkState := { Networks := [] }
    failures := none
    errorThreshold := failureThreshold }

/-- The consecutive-failure count recorded for a token (`none` when the
map is nil or has no entry; an absent entry reads as implicit count 0). -/
def failLookup (s : DiscoveryServer) (t : String) : Option Int :=
  s.failures.bind (fun m => mapFind m t)

/-- Embeds `failedToken`, that is `s.failures[token]++`. Reading a nil Go map yields
the zero value, but the write-back panics (`none` result); on a real
map the entry is bumped by one, created at 1 when absent. -/
def failedToken (s : DiscoveryServer) (token : String) : Option DiscoveryServer :=
  match s.failures with
  | none => none
  | some m =>
    some { s with failures := some (mapInsert m token ((mapFind m token).getD 0 + 1)) }

/-- Embeds `deleteFailedConnections`: the per-entry loop over the failure map
deletes, for every entry with count strictly above `errorThreshold`, the
token from the Token Store and the entry from the failure map. Each
iteration touches only its own key, so the loop is expressed as the two
resulting filters (exact for Go maps, whose keys are unique); ranging
over a nil map performs no iterations. -/
def deleteFailedConnections (s : DiscoveryServer) : DiscoveryServer :=
  match s.failures with
  | none => s
  | some m =>
    { s with
      database := ⟨s.database.tokens.filter (fun t =>
        match mapFind m t with
        | some v => decide (v ≤ s.errorThreshold)
        | none => true)⟩
      failures := some (m.filter (fun kv => decide (kv.2 ≤ s.errorThreshold))) }

/-- The per-token interaction with the external world during one pass:
which of `p2p.NewNode`, `n.Start` or `n.Ledger` fails, or the storage
snapshots the ledger scanner samples before its deadline. -/
inductive TokenOutcome where
  | newNodeErr
  | startErr
  | ledgerErr
  | scanned (rounds : List (List (String × List RawValue)))
deriving DecidableEq, Repr

/-- The `hasWorkers` flag as computed over the collected channel contents. -/
def hasWorkers (l : List ClusterData) : Bool :=
  l.any (fun k => decide (0 < k.Workers.length))

/-- One iteration of the token loop in `runBackground`: on any of the
three connection-stage errors, record a failure and continue; otherwise
collect `ledgerK` from the scanner, and either replace
`networkState.Networks[token]` and delete the token's failure entry
(deleting on a nil map is a no-op), or record a failure. `none` is a
panic (nil-map write in `failedToken`). -/
def processToken (env : String → TokenOutcome) (s : DiscoveryServer) (token : String) :
    Option DiscoveryServer :=
  match env token with
  | .newNodeErr => failedToken s token
  | .startErr => failedToken s token
  | .ledgerErr => failedToken s token
  | .scanned rounds =>
    let ledgerK := retrieveNetworkData rounds
    if hasWorkers ledgerK then
      some { s with
        networkState :=
          { Networks := mapInsert s.networkState.Networks token { Clusters := ledgerK } }
        failures := s.failures.map (fun m => mapErase m token) }
    else failedToken s token

/-- Embeds `runBackground`: one discovery pass. An empty token list returns at
once (after a sleep); otherwise every token is processed in order and
the eviction sweep runs at the end. -/
def runBackground (env : String → TokenOutcome) (s : DiscoveryServer) : Option DiscoveryServer :=
  if s.database.TokenList.length = 0 then some s
  else
    (s.database.TokenList.foldlM (fun st t => processToken env st t) s).map
      deleteFailedConnections

/-- Outcome of running `Start` for a bounded number of loop iterations:
it observed the cancellation and returned the `"context cancelled"`
error, a pass panicked, or the fuel ran out with the loop still going. -/
inductive StartResult where
  | cancelled (err : String) (s : DiscoveryServer)
  | panicked
  | running (s : DiscoveryServer)
deriving DecidableEq, Repr

/-- Embeds `Start`: each iteration `i` first checks the cancellation signal
(`ctx.Done()`), returning the error when it has fired, and otherwise
runs one pass against that iteration's environment. -/
def Start (envs : Nat → String → TokenOutcome) (cancelledAt : Nat → Bool) :
    Nat → Nat → DiscoveryServer → StartResult
  | 0, _, s => .running s
  | fuel + 1, i, s =>
    if cancelledAt i then .cancelled "context cancelled" s
    else
      match runBackground (envs i) s with
      | none => .panicked
      | some s' => Start envs cancelledAt fuel (i + 1) s'

/-- Every cluster stored in the snapshot has a non-empty worker list. -/
def wfNetworks (ns : List (String × Network)) : Prop :=
  ∀ kv ∈ ns, ∀ cd ∈ kv.2.Clusters, cd.Workers ≠ []

/-- A sample state for the eviction sweep: token `"t"` has 4 recorded
failures (above the threshold 3), token `"u"` has exactly 3. -/
def sweepSampleServer : DiscoveryServer :=
  ⟨⟨["t", "u"]⟩, ⟨[]⟩, 1, some [("t", 4), ("u", 3)], 3⟩

/-- A sample state in which token `"t"` is about to be evicted (4
failures, threshold 3) while NetworkState still holds a cluster for it. -/
def evictSampleServer : DiscoveryServer :=
  ⟨⟨["t"]⟩, ⟨[("t", ⟨[⟨["w"], "worker", ""⟩]⟩)]⟩, 1, some [("t", 4)], 3⟩

/-! ## Helper lemmas about the map embedding -/

@[simp] theorem mapFind_nil {β : Type} (k : String) : mapFind ([] : List (String × β)) k = none := rfl

@[simp] theorem mapFind_cons {β : Type} (k' k : String) (v : β) (t : List (String × β)) :
    mapFind ((k', v) :: t) k = if k' = k then some v else mapFind t k := rfl

@[simp] theorem mapFind_insert_self {β : Type} (m : List (String × β)) (k : String) (v : β) :
    mapFind (mapInsert m k v) k = some v := by
  simp [mapInsert]

theorem mapFind_erase_self {β : Type} (m : List (String × β)) (k : String) :
    mapFind (mapErase m k) k = none := by
  induction m with
  | nil => rfl
  | cons kv t ih =>
    obtain ⟨a, v⟩ := kv
    by_cases h : a = k
    · simp [mapErase, h, ih]
    · simp [mapErase, h, ih]

theorem mapFind_erase_ne {β : Type} (m : List (String × β)) (k k' : String) (h : k' ≠ k) :
    mapFind (mapErase m k) k' = mapFind m k' := by
  induction m with
  | nil => rfl
  | cons kv t ih =>
    obtain ⟨a, v⟩ := kv
    by_cases hk : a = k
    · simp [mapErase, hk, ih, Ne.symm h]
    · by_cases hk' : a = k'
      · simp [mapErase, hk, hk', h]
      · simp [mapErase, hk, hk', ih]

theorem mapFind_insert_ne {β : Type} (m : List (String × β)) (k k' : String) (v : β)
    (h : k' ≠ k) : mapFind (mapInsert m k v) k' = mapFind m k' := by
  have hk : k ≠ k' := fun hh => h hh.symm
  simp [mapInsert, hk, mapFind_erase_ne m k k' h]

theorem mem_of_mem_mapErase {β : Type} {m : List (String × β)} {k : String} {kv : String × β}
    (h : kv ∈ mapErase m k) : kv ∈ m := by
  induction m with
  | nil => simp [mapErase] at h
  | cons hd t ih =>
    obtain ⟨a, v⟩ := hd
    by_cases ha : a = k
    · simp only [mapErase, if_pos ha] at h
      exact List.mem_cons_of_mem _ (ih h)
    · simp only [mapErase, if_neg ha, List.mem_cons] at h
      rcases h with h | h
      · exact h ▸ List.mem_cons_self _ _
      · exact List.mem_cons_of_mem _ (ih h)

theorem mapFind_filter_of_sat {β : Type} {m : List (String × β)} {t : String} {v : β}
    (p : String × β → Bool) (hv : mapFind m t = some v) (hp : p (t, v) = true) :
    mapFind (m.filter p) t = some v := by
  induction m with
  | nil => simp at hv
  | cons hd tl ih =>
    obtain ⟨a, w⟩ := hd
    by_cases ha : a = t
    · subst ha
      simp only [mapFind_cons, if_pos rfl] at hv
      obtain rfl := Option.some.inj hv
      simp [List.filter_cons, hp]
    · simp only [mapFind_cons, if_neg ha] at hv
      by_cases hpa : p (a, w) = true
      · simp [List.filter_cons, hpa, ha, ih hv]
      · simp [List.filter_cons, hpa, ih hv]

theorem mapFind_eq_none_of_not_mem_keys {β : Type} {m : List (String × β)} {t : String}
    (h : t ∉ m.map Prod.fst) : mapFind m t = none := by
  induction m with
  | nil => rfl
  | cons hd tl ih =>
    obtain ⟨a, w⟩ := hd
    simp only [List.map_cons, List.mem_cons] at h
    push_neg at h
    have ha : a ≠ t := fun hh => h.1 hh.symm
    simp [mapFind_cons, ha, ih h.2]

theorem mapFind_filter_none_of_none {β : Type} {m : List (String × β)} {t : String}
    (p : String × β → Bool) (h : mapFind m t = none) : mapFind (m.filter p) t = none := by
  induction m with
  | nil => rfl
  | cons hd tl ih =>
    obtain ⟨a, w⟩ := hd
    by_cases ha : a = t
    · simp [mapFind_cons, ha] at h
    · simp only [mapFind_cons, if_neg ha] at h
      by_cases hpa : p (a, w) = true
      · simp [List.filter_cons, hpa, ha, ih h]
      · simp [List.filter_cons, hpa, ih h]

theorem mapFind_filter_eq_none_of_nodup {β : Type} {m : List (String × β)} {t : String} {v : β}
    (p : String × β → Bool) (hnd : (m.map Prod.fst).Nodup)
    (hv : mapFind m t = some v) (hp : p (t, v) = false) :
    mapFind (m.filter p) t = none := by
  induction m with
  | nil => simp at hv
  | cons hd tl ih =>
    obtain ⟨a, w⟩ := hd
    simp only [List.map_cons, List.nodup_cons] at hnd
    by_cases ha : a = t
    · subst ha
      simp only [mapFind_cons, if_pos rfl] at hv
      obtain rfl := Option.some.inj hv
      have htl : mapFind tl a = none := mapFind_eq_none_of_not_mem_keys hnd.1
      simpa [List.filter_cons, hp] using mapFind_filter_none_of_none p htl
    · simp only [mapFind_cons, if_neg ha] at hv
      by_cases hpa : p (a, w) = true
      · simp [List.filter_cons, hpa, ha, ih hnd.2 hv]
      · simp [List.filter_cons, hpa, ih hnd.2 hv]

/-! ## Helper lemmas about the server operations -/

theorem failedToken_eq_some {s : DiscoveryServer} {m : List (String × Int)}
    (h : s.failures = some m) (t : String) :
    failedToken s t =
      some { s with failures := some (mapInsert m t ((mapFind m t).getD 0 + 1)) } := by
  simp [failedToken, h]

theorem failedToken_networkState {s s' : DiscoveryServer} {t : String}
    (h : failedToken s t = some s') :
    s'.networkState = s.networkState ∧ s'.database = s.database := by
  cases hm : s.failures with
  | none => simp [failedToken, hm] at h
  | some m =>
    rw [failedToken_eq_some hm] at h
    obtain rfl := Option.some.inj h
    exact ⟨rfl, rfl⟩

theorem deleteFailedConnections_networkState (s : DiscoveryServer) :
    (deleteFailedConnections s).networkState = s.networkState := by
  cases h : s.failures <;> simp [deleteFailedConnections, h]

theorem deleteFailedConnections_failures_isSome (s : DiscoveryServer)
    (h : s.failures.isSome = true) :
    (deleteFailedConnections s).failures.isSome = true := by
  obtain ⟨m, hm⟩ := Option.isSome_iff_exists.mp h
  simp [deleteFailedConnections, hm]

theorem processToken_failures_isSome (env : String → TokenOutcome) (s : DiscoveryServer)
    (t : String) (h : s.failures.isSome = true) :
    ∃ s', processToken env s t = some s' ∧ s'.failures.isSome = true := by
  obtain ⟨m, hm⟩ := Option.isSome_iff_exists.mp h
  cases he : env t with
  | newNodeErr => exact ⟨_, by rw [processToken, he]; exact failedToken_eq_some hm t, by simp⟩
  | startErr => exact ⟨_, by rw [processToken, he]; exact failedToken_eq_some hm t, by simp⟩
  | ledgerErr => exact ⟨_, by rw [processToken, he]; exact failedToken_eq_some hm t, by simp⟩
  | scanned rounds =>
    by_cases hw : hasWorkers (retrieveNetworkData rounds) = true
    · refine ⟨{ s with
        networkState :=
          { Networks := mapInsert s.networkState.Networks t
              { Clusters := retrieveNetworkData rounds } }
        failures := s.failures.map (fun m => mapErase m t) }, ?_, ?_⟩
      · rw [processToken, he]
        simp [hw]
      · simp [hm]
    · refine ⟨{ s with failures := some (mapInsert m t ((mapFind m t).getD 0 + 1)) }, ?_,
        by simp⟩
      have hstep : processToken env s t = failedToken s t := by
        rw [processToken, he]
        simp [hw]
      rw [hstep]
      exact failedToken_eq_some hm t

theorem foldlM_processToken_isSome (env : String → TokenOutcome) :
    ∀ (ts : List String) (s : DiscoveryServer), s.failures.isSome = true →
      ∃ s', ts.foldlM (fun st t => processToken env st t) s = some s' ∧
        s'.failures.isSome = true
  | [], s, h => ⟨s, rfl, h⟩
  | t :: ts, s, h => by
    obtain ⟨s1, h1, h1s⟩ := processToken_failures_isSome env s t h
    obtain ⟨s', h', hs'⟩ := foldlM_processToken_isSome env ts s1 h1s
    exact ⟨s', by simp [List.foldlM_cons, h1, h'], hs'⟩

theorem runBackground_isSome (env : String → TokenOutcome) (s : DiscoveryServer)
    (h : s.failures.isSome = true) :
    ∃ s', runBackground env s = some s' ∧ s'.failures.isSome = true := by
  by_cases hdb : s.database.TokenList.length = 0
  · exact ⟨s, by simp [runBackground, hdb], h⟩
  · obtain ⟨s1, h1, h1s⟩ := foldlM_processToken_isSome env s.database.TokenList s h
    exact ⟨deleteFailedConnections s1, by simp [runBackground, hdb, h1],
      deleteFailedConnections_failures_isSome s1 h1s⟩

/-! ## Helper lemmas about the ledger scanner -/

theorem foldl_workerStep (vals : List RawValue) :
    ∀ (b : Bool) (l : List String),
      vals.foldl workerStep (b, l) = (b || !(onlineIDs vals).isEmpty, l ++ onlineIDs vals) := by
  induction vals with
  | nil => intro b l; simp [onlineIDs]
  | cons v vs ih =>
    intro b l
    cases v with
    | malformed =>
      simpa [workerStep, unmarshal, onlineIDs] using ih b l
    | node nd =>
      by_cases ho : nd.IsOnline = true
      · simp [workerStep, unmarshal, ho, onlineIDs, ih true (l ++ [nd.ID])]
      · simp only [Bool.not_eq_true] at ho
        simpa [workerStep, unmarshal, ho, onlineIDs] using ih b l

theorem collectWorkers_eq (vals : List RawValue) :
    collectWorkers vals = (!(onlineIDs vals).isEmpty, onlineIDs vals) := by
  simpa [collectWorkers] using foldl_workerStep vals false []

theorem scanKey_eq {d : String} {ty : String} (vals : List RawValue)
    (h : classifyKey d = some ty) :
    scanKey d vals =
      if onlineIDs vals = [] then none
      else some { Workers := onlineIDs vals, «Type» := ty, NetworkID := keyNetworkID d } := by
  rw [scanKey, h]
  simp only [collectWorkers_eq]
  by_cases he : onlineIDs vals = [] <;> simp [he]

theorem scanKey_workers_ne_nil {d : String} {vals : List RawValue} {cd : ClusterData}
    (h : scanKey d vals = some cd) : cd.Workers ≠ [] := by
  cases hc : classifyKey d with
  | none => rw [scanKey, hc] at h; cases h
  | some ty =>
    rw [scanKey_eq vals hc] at h
    by_cases he : onlineIDs vals = []
    · simp [he] at h
    · rw [if_neg he] at h
      obtain rfl := Option.some.inj h
      exact he

theorem scanRound_workers_ne_nil :
    ∀ (st : List (String × List RawValue)) (cs : List (String × ClusterData)),
      (∀ kv ∈ cs, kv.2.Workers ≠ []) →
      ∀ kv ∈ scanRound st cs, kv.2.Workers ≠ []
  | [], cs, h => by simpa [scanRound] using h
  | e :: st, cs, h => by
    have hstep :
        scanRound (e :: st) cs =
          scanRound st
            (match scanKey e.1 e.2 with
             | none => cs
             | some cd => mapInsert cs e.1 cd) := by
      simp [scanRound]
    rw [hstep]
    cases hk : scanKey e.1 e.2 with
    | none => exact scanRound_workers_ne_nil st cs h
    | some cd =>
      apply scanRound_workers_ne_nil st (mapInsert cs e.1 cd)
      intro kv hkv
      rcases List.mem_cons.mp hkv with hkv | hkv
      · rw [hkv]
        exact scanKey_workers_ne_nil hk
      · exact h kv (mem_of_mem_mapErase hkv)

theorem retrieveNetworkData_aux :
    ∀ (rounds : List (List (String × List RawValue))) (cs : List (String × ClusterData)),
      (∀ kv ∈ cs, kv.2.Workers ≠ []) →
      ∀ kv ∈ rounds.foldl (fun cs st => scanRound st cs) cs, kv.2.Workers ≠ []
  | [], cs, h => by simpa using h
  | st :: rs, cs, h => by
    simp only [List.foldl_cons]
    exact retrieveNetworkData_aux rs (scanRound st cs) (scanRound_workers_ne_nil st cs h)

theorem retrieveNetworkData_workers_ne_nil (rounds : List (List (String × List RawValue))) :
    ∀ cd ∈ retrieveNetworkData rounds, cd.Workers ≠ [] := by
  intro cd hcd
  simp only [retrieveNetworkData, List.mem_map] at hcd
  obtain ⟨kv, hkv, rfl⟩ := hcd
  exact retrieveNetworkData_aux rounds [] (by simp) kv hkv

/-! ## The Workers-non-empty invariant on the network state -/

theorem processToken_wf (env : String → TokenOutcome) (s : DiscoveryServer) (t : String)
    {s' : DiscoveryServer} (h : processToken env s t = some s')
    (hwf : wfNetworks s.networkState.Networks) : wfNetworks s'.networkState.Networks := by
  cases he : env t with
  | newNodeErr =>
    rw [processToken, he] at h
    exact (failedToken_networkState h).1 ▸ hwf
  | startErr =>
    rw [processToken, he] at h
    exact (failedToken_networkState h).1 ▸ hwf
  | ledgerErr =>
    rw [processToken, he] at h
    exact (failedToken_networkState h).1 ▸ hwf
  | scanned rounds =>
    rw [processToken, he] at h
    dsimp only at h
    by_cases hw : hasWorkers (retrieveNetworkData rounds) = true
    · rw [if_pos hw] at h
      obtain rfl := Option.some.inj h
      intro kv hkv
      rcases List.mem_cons.mp hkv with hkv | hkv
      · rw [hkv]
        intro cd hcd
        exact retrieveNetworkData_workers_ne_nil rounds cd hcd
      · exact hwf kv (mem_of_mem_mapErase hkv)
    · rw [if_neg hw] at h
      exact (failedToken_networkState h).1 ▸ hwf

theorem foldlM_processToken_wf (env : String → TokenOutcome) :
    ∀ (ts : List String) (s s' : DiscoveryServer),
      ts.foldlM (fun st t => processToken env st t) s = some s' →
      wfNetworks s.networkState.Networks → wfNetworks s'.networkState.Networks
  | [], s, s', h, hwf => by
    obtain rfl := Option.some.inj h
    exact hwf
  | t :: ts, s, s', h, hwf => by
    rw [List.foldlM_cons] at h
    cases h1 : processToken env s t with
    | none => rw [h1] at h; cases h
    | some s1 =>
      rw [h1] at h
      simp only [Option.bind_eq_bind, Option.some_bind] at h
      exact foldlM_processToken_wf env ts s1 s' h (processToken_wf env s t h1 hwf)

theorem runBackground_wf (env : String → TokenOutcome) {s s' : DiscoveryServer}
    (h : runBackground env s = some s') (hwf : wfNetworks s.networkState.Networks) :
    wfNetworks s'.networkState.Networks := by
  rw [runBackground] at h
  by_cases hdb : s.database.TokenList.length = 0
  · rw [if_pos hdb] at h
    obtain rfl := Option.some.inj h
    exact hwf
  · rw [if_neg hdb] at h
    cases h1 : s.database.TokenList.foldlM (fun st t => processToken env st t) s with
    | none => rw [h1] at h; cases h
    | some s1 =>
      rw [h1] at h
      simp only [Option.map_some'] at h
      obtain rfl := Option.some.inj h.symm
      have := foldlM_processToken_wf env s.database.TokenList s s1 h1 hwf
      rw [deleteFailedConnections_networkState]
      exact this

/-! ## Helper lemmas about the outer loop -/

theorem start_cancelled_imp (envs : Nat → String → TokenOutcome) (cancelledAt : Nat → Bool) :
    ∀ (fuel i : Nat) (s : DiscoveryServer) (e : String) (s' : DiscoveryServer),
      Start envs cancelledAt fuel i s = StartResult.cancelled e s' →
      ∃ j, cancelledAt j = true
  | 0, i, s, e, s', h => StartResult.noConfusion h
  | fuel + 1, i, s, e, s', h => by
    by_cases hc : cancelledAt i = true
    · exact ⟨i, hc⟩
    · simp only [Start] at h
      rw [if_neg hc] at h
      cases hr : runBackground (envs i) s with
      | none =>
        rw [hr] at h
        exact StartResult.noConfusion h
      | some s1 =>
        rw [hr] at h
        exact start_cancelled_imp envs cancelledAt fuel (i + 1) s1 e s' h

theorem start_running_of_never_cancelled (envs : Nat → String → TokenOutcome)
    (cancelledAt : Nat → Bool) (hnc : ∀ j, cancelledAt j = false) :
    ∀ (fuel i : Nat) (s : DiscoveryServer), s.failures.isSome = true →
      ∃ s', Start envs cancelledAt fuel i s = StartResult.running s' ∧
        s'.failures.isSome = true
  | 0, _, s, h => ⟨s, rfl, h⟩
  | fuel + 1, i, s, h => by
    obtain ⟨s1, h1, h1s⟩ := runBackground_isSome (envs i) s h
    obtain ⟨s', h', hs'⟩ :=
      start_running_of_never_cancelled envs cancelledAt hnc fuel (i + 1) s1 h1s
    exact ⟨s', by simp [Start, hnc i, h1, h'], hs'⟩

/-! ## Helper lemmas about the eviction sweep -/

theorem sweep_above_threshold_aux (s : DiscoveryServer) (m : List (String × Int))
    (t : String) (v : Int) (hm : s.failures = some m) (hnd : (m.map Prod.fst).Nodup)
    (hv : mapFind m t = some v) (hvt : v > s.errorThreshold) :
    t ∉ (deleteFailedConnections s).database.tokens ∧
    failLookup (deleteFailedConnections s) t = none := by
  have hfalse : decide (v ≤ s.errorThreshold) = false := by
    simp [not_le.mpr hvt]
  constructor
  · intro hmem
    simp only [deleteFailedConnections, hm] at hmem
    rw [List.mem_filter] at hmem
    simp [hv, hfalse] at hmem
  · simp only [failLookup, deleteFailedConnections, hm, Option.bind_eq_bind, Option.some_bind]
    exact mapFind_filter_eq_none_of_nodup _ hnd hv hfalse

theorem sweep_at_threshold_aux (s : DiscoveryServer) (m : List (String × Int))
    (t : String) (v : Int) (hm : s.failures = some m)
    (hv : mapFind m t = some v) (hvt : v = s.errorThreshold) :
    (t ∈ s.database.tokens → t ∈ (deleteFailedConnections s).database.tokens) ∧
    failLookup (deleteFailedConnections s) t = some v := by
  have htrue : decide (v ≤ s.errorThreshold) = true := by simp [hvt]
  constructor
  · intro hmem
    simp only [deleteFailedConnections, hm]
    rw [List.mem_filter]
    refine ⟨hmem, ?_⟩
    rw [hv]
    exact htrue
  · simp only [failLookup, deleteFailedConnections, hm, Option.bind_eq_bind, Option.some_bind]
    exact mapFind_filter_of_sat _ hv htrue

/-! ## Claims -/

/-- C1: after `deleteFailedConnections`, every token whose recorded
consecutive-failure count strictly exceeds `errorThreshold` has been
deleted from the Token Store and removed from the failure map, while a
token whose count merely equals the threshold keeps its store membership
and its failure entry. -/
theorem sweep_evicts_strictly_above_threshold
    (s : DiscoveryServer) (m : List (String × Int)) (t : String) (v : Int)
    (hm : s.failures = some m) (hnd : (m.map Prod.fst).Nodup)
    (hv : mapFind m t = some v) :
    (v > s.errorThreshold →
      t ∉ (deleteFailedConnections s).database.tokens ∧
      failLookup (deleteFailedConnections s) t = none) ∧
    (v = s.errorThreshold →
      (t ∈ s.database.tokens → t ∈ (deleteFailedConnections s).database.tokens) ∧
      failLookup (deleteFailedConnections s) t = some v) :=
  ⟨fun hvt => sweep_above_threshold_aux s m t v hm hnd hv hvt,
   fun hvt => sweep_at_threshold_aux s m t v hm hv hvt⟩

theorem sweep_evicts_strictly_above_threshold_witness :
    ("t" ∉ (deleteFailedConnections sweepSampleServer).database.tokens ∧
      failLookup (deleteFailedConnections sweepSampleServer) "t" = none) ∧
    (("u" ∈ sweepSampleServer.database.tokens →
      "u" ∈ (deleteFailedConnections sweepSampleServer).database.tokens) ∧
      failLookup (deleteFailedConnections sweepSampleServer) "u" = some 3) :=
  ⟨(sweep_evicts_strictly_above_threshold sweepSampleServer [("t", 4), ("u", 3)] "t" 4
      rfl (by decide) rfl).1 (by decide),
   (sweep_evicts_strictly_above_threshold sweepSampleServer [("t", 4), ("u", 3)] "u" 3
      rfl (by decide) (by decide)).2 rfl⟩

/-- C4 counterexample: at this concrete state the sweep evicts token
`"t"` (count 4 > threshold 3) — the token is deleted from the Token
Store and its failure entry removed — yet its NetworkState entry
survives intact, so the claim's "any NetworkState entry for that token
[is] cleared as part of the eviction action" is false. -/
theorem sweep_keeps_networkState_entry_counterexample :
    (deleteFailedConnections evictSampleServer).database.tokens = [] ∧
    failLookup (deleteFailedConnections evictSampleServer) "t" = none ∧
    mapFind (deleteFailedConnections evictSampleServer).networkState.Networks "t" =
      some { Clusters := [{ Workers := ["w"], «Type» := "worker", NetworkID := "" }] } := by
  decide

/-- C4 (amended): when the sweep evicts a token (count strictly above
the threshold), its failure counter is removed and the token is deleted
from the Token Store, but no NetworkState entry is cleared: the sweep
leaves the NetworkState component entirely unchanged, and any stale
entry for the evicted token survives. -/
theorem eviction_clears_store_and_counter_only
    (s : DiscoveryServer) (m : List (String × Int)) (t : String) (v : Int)
    (hm : s.failures = some m) (hnd : (m.map Prod.fst).Nodup)
    (hv : mapFind m t = some v) (hvt : v > s.errorThreshold) :
    t ∉ (deleteFailedConnections s).database.tokens ∧
    failLookup (deleteFailedConnections s) t = none ∧
    (deleteFailedConnections s).networkState = s.networkState :=
  ⟨(sweep_above_threshold_aux s m t v hm hnd hv hvt).1,
   (sweep_above_threshold_aux s m t v hm hnd hv hvt).2,
   deleteFailedConnections_networkState s⟩

theorem eviction_clears_store_and_counter_only_witness :
    "t" ∉ (deleteFailedConnections evictSampleServer).database.tokens ∧
    failLookup (deleteFailedConnections evictSampleServer) "t" = none ∧
    (deleteFailedConnections evictSampleServer).networkState =
      evictSampleServer.networkState :=
  eviction_clears_store_and_counter_only evictSampleServer [("t", 4)] "t" 4
    rfl (by decide) rfl (by decide)

/-- C8: if the Token Store's token list is empty at the start of a pass,
`runBackground` returns leaving the entire server state — in particular
`NetworkState` and the failure map — exactly unchanged; nothing is
processed and the eviction sweep is not applied. -/
theorem empty_token_list_pass_is_noop (env : String → TokenOutcome) (s : DiscoveryServer)
    (h : s.database.TokenList = []) : runBackground env s = some s := by
  simp [runBackground, h]

theorem empty_token_list_pass_is_noop_witness :
    runBackground (fun _ => TokenOutcome.newNodeErr)
      ⟨⟨[]⟩, ⟨[("old", ⟨[]⟩)]⟩, 1, some [("net2", 9)], 3⟩ =
      some ⟨⟨[]⟩, ⟨[("old", ⟨[]⟩)]⟩, 1, some [("net2", 9)], 3⟩ :=
  empty_token_list_pass_is_noop (fun _ => TokenOutcome.newNodeErr)
    ⟨⟨[]⟩, ⟨[("old", ⟨[]⟩)]⟩, 1, some [("net2", 9)], 3⟩ rfl

/-- C10: the claim states that every server built by `NewDiscoveryServer`
carries an initialized (non-nil) failures map, so that the first
`failedToken` call yields count 1. In the source the struct literal
omits the `failures` field, leaving it the nil map; evaluated at a
concrete input, the constructed server's failure map is nil (`none`) and
the first recorded failure — directly or inside a pass — is a nil-map
assignment panic (`none`) instead of a count of 1. -/
theorem newDiscoveryServer_failures_nil :
    (NewDiscoveryServer ⟨["net1"]⟩ 0 0).failures = none ∧
    failedToken (NewDiscoveryServer ⟨["net1"]⟩ 0 0) "net1" = none ∧
    runBackground (fun _ => TokenOutcome.newNodeErr) (NewDiscoveryServer ⟨["net1"]⟩ 0 0) =
      none :=
  ⟨rfl, rfl, rfl⟩

/-- C9: `Start` repeatedly invokes passes; it returns the
`"context cancelled"` error exactly when the cancellation signal has
fired, and (for a server whose failure map is initialized, so that a
pass cannot panic) no in-pass condition makes it stop: with the signal
never firing the loop is still running after any number of iterations. -/
theorem start_returns_error_only_on_cancellation
    (envs : Nat → String → TokenOutcome) (cancelledAt : Nat → Bool)
    (fuel i : Nat) (s : DiscoveryServer) (h : s.failures.isSome = true) :
    (∀ e s', Start envs cancelledAt fuel i s = StartResult.cancelled e s' →
      ∃ j, cancelledAt j = true) ∧
    ((∀ j, cancelledAt j = false) →
      ∃ s', Start envs cancelledAt fuel i s = StartResult.running s') ∧
    (∀ fuel', cancelledAt i = true →
      Start envs cancelledAt (fuel' + 1) i s = StartResult.cancelled "context cancelled" s) := by
  refine ⟨fun e s' hh => start_cancelled_imp envs cancelledAt fuel i s e s' hh, fun hnc => ?_,
    fun fuel' hc => by simp [Start, hc]⟩
  obtain ⟨s', h', _⟩ := start_running_of_never_cancelled envs cancelledAt hnc fuel i s h
  exact ⟨s', h'⟩

theorem start_returns_error_only_on_cancellation_witness :
    (∀ e s', Start (fun _ _ => TokenOutcome.newNodeErr) (fun _ => false) 2 0
        ⟨⟨["net1"]⟩, ⟨[]⟩, 1, some [], 3⟩ = StartResult.cancelled e s' →
      ∃ j, (fun _ => false : Nat → Bool) j = true) ∧
    ((∀ j, (fun _ => false : Nat → Bool) j = false) →
      ∃ s', Start (fun _ _ => TokenOutcome.newNodeErr) (fun _ => false) 2 0
        ⟨⟨["net1"]⟩, ⟨[]⟩, 1, some [], 3⟩ = StartResult.running s') ∧
    (∀ fuel', (fun _ => false : Nat → Bool) 0 = true →
      Start (fun _ _ => TokenOutcome.newNodeErr) (fun _ => false) (fuel' + 1) 0
        ⟨⟨["net1"]⟩, ⟨[]⟩, 1, some [], 3⟩ =
        StartResult.cancelled "context cancelled" ⟨⟨["net1"]⟩, ⟨[]⟩, 1, some [], 3⟩) :=
  start_returns_error_only_on_cancellation (fun _ _ => TokenOutcome.newNodeErr)
    (fun _ => false) 2 0 ⟨⟨["net1"]⟩, ⟨[]⟩, 1, some [], 3⟩ rfl

/-- C2: for a token whose scan collected at least one ClusterData with a
non-empty worker list, the pass replaces the NetworkState entry for that
token wholesale with the full collected sequence (whatever entry was
there before) and clears the token's failure counter to absent,
regardless of its prior count; the Token Store is untouched. -/
theorem success_replaces_wholesale_and_clears_counter
    (env : String → TokenOutcome) (s : DiscoveryServer) (token : String)
    (rounds : List (List (String × List RawValue)))
    (hsc : env token = TokenOutcome.scanned rounds)
    (hw : hasWorkers (retrieveNetworkData rounds) = true) :
    ∃ s', processToken env s token = some s' ∧
      mapFind s'.networkState.Networks token =
        some { Clusters := retrieveNetworkData rounds } ∧
      failLookup s' token = none ∧
      s'.database = s.database := by
  refine ⟨{ s with
      networkState :=
        { Networks := mapInsert s.networkState.Networks token
            { Clusters := retrieveNetworkData rounds } }
      failures := s.failures.map (fun m => mapErase m token) }, ?_, ?_, ?_⟩
  · rw [processToken, hsc]
    dsimp only
    rw [if_pos hw]
  · exact mapFind_insert_self _ _ _
  · refine ⟨?_, rfl⟩
    cases hm : s.failures with
    | none => simp [failLookup, hm]
    | some m => simp [failLookup, hm, mapFind_erase_self]

theorem success_replaces_wholesale_and_clears_counter_witness :
    ∃ s', processToken
        (fun _ => TokenOutcome.scanned [[("net1_WORKER_ID", [RawValue.node ⟨"w1", true⟩])]])
        ⟨⟨["net1"]⟩, ⟨[("net1", ⟨[⟨["old"], "worker", "x"⟩]⟩)]⟩, 1, some [("net1", 2)], 3⟩
        "net1" = some s' ∧
      mapFind s'.networkState.Networks "net1" =
        some { Clusters := [{ Workers := ["w1"], «Type» := "worker", NetworkID := "net1" }] } ∧
      failLookup s' "net1" = none ∧
      s'.database = ⟨["net1"]⟩ := by
  obtain ⟨s', h1, h2, h3, h4⟩ :=
    success_replaces_wholesale_and_clears_counter
      (fun _ => TokenOutcome.scanned [[("net1_WORKER_ID", [RawValue.node ⟨"w1", true⟩])]])
      ⟨⟨["net1"]⟩, ⟨[("net1", ⟨[⟨["old"], "worker", "x"⟩]⟩)]⟩, 1, some [("net1", 2)], 3⟩
      "net1" [[("net1_WORKER_ID", [RawValue.node ⟨"w1", true⟩])]] rfl (by decide)
  exact ⟨s', h1, by rw [h2]; rfl, h3, h4⟩

/-- C3: each of the three connection-stage failures and a zero-worker
scan result records exactly one more failure for the token (creating the
entry at 1 when absent), leaves every other counter, the NetworkState
and the Token Store untouched, and — with the failure map initialized —
the pass continues and completes without propagating any error. -/
theorem failure_paths_increment_and_skip
    (env : String → TokenOutcome) (s : DiscoveryServer) (token : String)
    (m : List (String × Int)) (hm : s.failures = some m)
    (hout : env token = TokenOutcome.newNodeErr ∨ env token = TokenOutcome.startErr ∨
      env token = TokenOutcome.ledgerErr ∨
      ∃ rounds, env token = TokenOutcome.scanned rounds ∧
        hasWorkers (retrieveNetworkData rounds) = false) :
    ∃ s', processToken env s token = some s' ∧
      failLookup s' token = some ((failLookup s token).getD 0 + 1) ∧
      (∀ t', t' ≠ token → failLookup s' t' = failLookup s t') ∧
      s'.networkState = s.networkState ∧
      s'.database = s.database ∧
      (runBackground env s).isSome = true := by
  have hstep : processToken env s token = failedToken s token := by
    rcases hout with hh | hh | hh | ⟨rounds, hh, hwf⟩
    · rw [processToken, hh]
    · rw [processToken, hh]
    · rw [processToken, hh]
    · rw [processToken, hh]
      dsimp only
      rw [if_neg (by simp [hwf])]
  refine ⟨{ s with failures := some (mapInsert m token ((mapFind m token).getD 0 + 1)) },
    (by rw [hstep]; exact failedToken_eq_some hm token), ?_, ?_, rfl, rfl, ?_⟩
  · simp [failLookup, hm]
  · intro t' ht'
    simp [failLookup, hm, mapFind_insert_ne m token t' _ ht']
  · obtain ⟨s2, h2, _⟩ := runBackground_isSome env s (by simp [hm])
    simp [h2]

theorem failure_paths_increment_and_skip_witness :
    ∃ s', processToken (fun _ => TokenOutcome.newNodeErr)
        ⟨⟨["net2"]⟩, ⟨[]⟩, 1, some [], 3⟩ "net2" = some s' ∧
      failLookup s' "net2" = some 1 ∧
      (∀ t', t' ≠ "net2" →
        failLookup s' t' = failLookup ⟨⟨["net2"]⟩, ⟨[]⟩, 1, some [], 3⟩ t') ∧
      s'.networkState = (⟨[]⟩ : NetworkState) ∧
      s'.database = (⟨["net2"]⟩ : Database) ∧
      (runBackground (fun _ => TokenOutcome.newNodeErr)
        ⟨⟨["net2"]⟩, ⟨[]⟩, 1, some [], 3⟩).isSome = true := by
  obtain ⟨s', h1, h2, h3, h4, h5, h6⟩ :=
    failure_paths_increment_and_skip (fun _ => TokenOutcome.newNodeErr)
      ⟨⟨["net2"]⟩, ⟨[]⟩, 1, some [], 3⟩ "net2" [] rfl (Or.inl rfl)
  exact ⟨s', h1, by rw [h2]; rfl, h3, h4, h5, h6⟩

/-- C5 counterexample: the key `"n_WORKER_ID_FEDERATED_ID"` satisfies
the claim's federated-cluster condition (it contains `_` and the
federated marker as a substring), yet the scanner classifies it as a
worker cluster, because the `switch` tests the worker arm first — the
claimed "analogous" iff for the federated marker fails at this key. -/
theorem federated_iff_fails_on_dual_marker_key :
    ("n_WORKER_ID_FEDERATED_ID" = FederatedID ∨
      (strContains "n_WORKER_ID_FEDERATED_ID" "_" = true ∧
       strContains "n_WORKER_ID_FEDERATED_ID" FederatedID = true)) ∧
    classifyKey "n_WORKER_ID_FEDERATED_ID" ≠ some "federated" ∧
    classifyKey "n_WORKER_ID_FEDERATED_ID" = some "worker" := by
  decide

/-- C5 (amended): a ledger key is classified as a worker cluster exactly
under the claim's worker condition; it is classified as a federated
cluster exactly under the claim's federated condition AND NOT the worker
condition (the `switch` tests the worker arm first, so worker wins on
keys matching both markers); a key matching neither condition produces
no ClusterData; and any ClusterData produced for a key carries as
NetworkID the prefix of the key before its first `_` when the key
contains `_`, and the empty string otherwise. -/
theorem classification_and_networkID_spec (d : String) (vals : List RawValue) :
    (classifyKey d = some "worker" ↔
      (d = WorkerID ∨ (strContains d "_" = true ∧ strContains d WorkerID = true))) ∧
    (classifyKey d = some "federated" ↔
      ((d = FederatedID ∨ (strContains d "_" = true ∧ strContains d FederatedID = true)) ∧
       ¬(d = WorkerID ∨ (strContains d "_" = true ∧ strContains d WorkerID = true)))) ∧
    ((¬(d = WorkerID ∨ (strContains d "_" = true ∧ strContains d WorkerID = true)) ∧
      ¬(d = FederatedID ∨ (strContains d "_" = true ∧ strContains d FederatedID = true))) →
      scanKey d vals = none) ∧
    (∀ cd, scanKey d vals = some cd →
      cd.NetworkID =
        if strContains d "_" = true then String.mk (d.toList.takeWhile (fun c => c ≠ '_'))
        else "") := by
  have hw : isWorkerCluster d = true ↔
      (d = WorkerID ∨ (strContains d "_" = true ∧ strContains d WorkerID = true)) := by
    simp [isWorkerCluster]
  have hf : isFederatedCluster d = true ↔
      (d = FederatedID ∨ (strContains d "_" = true ∧ strContains d FederatedID = true)) := by
    simp [isFederatedCluster]
  have hnet : ∀ cd, scanKey d vals = some cd → cd.NetworkID = keyNetworkID d := by
    intro cd hcd
    cases hc : classifyKey d with
    | none => rw [scanKey, hc] at hcd; cases hcd
    | some ty =>
      rw [scanKey_eq vals hc] at hcd
      by_cases he : onlineIDs vals = []
      · rw [if_pos he] at hcd; cases hcd
      · rw [if_neg he] at hcd
        obtain rfl := Option.some.inj hcd
        rfl
  refine ⟨?_, ?_, ?_, fun cd hcd => hnet cd hcd⟩
  · by_cases hcw : isWorkerCluster d = true
    · simp [classifyKey, hcw, hw.mp hcw]
    · by_cases hcf : isFederatedCluster d = true
      · simp only [classifyKey, hcw, if_false, Bool.false_eq_true, hcf, if_true]
        simp only [Option.some.injEq]
        constructor
        · intro hh
          exact absurd hh (by decide)
        · intro hh
          exact absurd (hw.mpr hh) hcw
      · simp only [classifyKey, hcw, hcf, if_false, Bool.false_eq_true]
        constructor
        · intro hh
          cases hh
        · intro hh
          exact absurd (hw.mpr hh) hcw
  · by_cases hcw : isWorkerCluster d = true
    · simp only [classifyKey, hcw, if_true, Option.some.injEq]
      constructor
      · intro hh
        exact absurd hh (by decide)
      · intro hh
        exact absurd (hw.mp hcw) hh.2
    · by_cases hcf : isFederatedCluster d = true
      · simp only [classifyKey, hcw, hcf, if_false, if_true, Bool.false_eq_true]
        constructor
        · intro _
          exact ⟨hf.mp hcf, fun hh => hcw (hw.mpr hh)⟩
        · intro _
          trivial
      · simp only [classifyKey, hcw, hcf, if_false, Bool.false_eq_true]
        constructor
        · intro hh
          cases hh
        · intro hh
          exact absurd (hf.mpr hh.1) hcf
  · intro hh
    have hcw : isWorkerCluster d = false :=
      Bool.eq_false_iff.mpr (fun hb => hh.1 (hw.mp hb))
    have hcf : isFederatedCluster d = false :=
      Bool.eq_false_iff.mpr (fun hb => hh.2 (hf.mp hb))
    have hcls : classifyKey d = none := by
      simp [classifyKey, hcw, hcf]
    rw [scanKey, hcls]

theorem classification_and_networkID_spec_witness :
    classifyKey "net9_FEDERATED_ID" = some "federated" ∧
    scanKey "unrelated-key" [RawValue.node ⟨"A", true⟩] = none :=
  ⟨(classification_and_networkID_spec "net9_FEDERATED_ID" []).2.1.mpr (by decide),
   (classification_and_networkID_spec "unrelated-key" [RawValue.node ⟨"A", true⟩]).2.2.1
     (by decide)⟩

/-- C6: for any classified ledger key, values that fail to decode are
skipped without producing an error (prepending a malformed value leaves
the scan of the key unchanged), the produced ClusterData's Workers list
is exactly the identifiers of the values that decode with the online
flag true, in value order, and a key none of whose values decodes as
online produces no ClusterData at all. -/
theorem scanKey_online_values_spec (d : String) (vals : List RawValue) (ty : String)
    (h : classifyKey d = some ty) :
    scanKey d (RawValue.malformed :: vals) = scanKey d vals ∧
    (onlineIDs vals ≠ [] →
      scanKey d vals =
        some { Workers := onlineIDs vals, «Type» := ty, NetworkID := keyNetworkID d }) ∧
    (onlineIDs vals = [] → scanKey d vals = none) := by
  have hmal : onlineIDs (RawValue.malformed :: vals) = onlineIDs vals := by
    simp [onlineIDs, unmarshal]
  refine ⟨?_, ?_, ?_⟩
  · rw [scanKey_eq vals h, scanKey_eq (RawValue.malformed :: vals) h, hmal]
  · intro hne
    rw [scanKey_eq vals h, if_neg hne]
  · intro he
    rw [scanKey_eq vals h, if_pos he]

theorem scanKey_online_values_spec_witness :
    scanKey "WORKER_ID" [RawValue.node ⟨"A", true⟩, RawValue.node ⟨"B", false⟩] =
      some { Workers := ["A"], «Type» := "worker", NetworkID := "WORKER" } ∧
    scanKey "WORKER_ID" [RawValue.node ⟨"B", false⟩, RawValue.malformed] = none := by
  constructor
  · have h := (scanKey_online_values_spec "WORKER_ID"
      [RawValue.node ⟨"A", true⟩, RawValue.node ⟨"B", false⟩] "worker" (by decide)).2.1
      (by decide)
    rw [h]
    rfl
  · exact (scanKey_online_values_spec "WORKER_ID"
      [RawValue.node ⟨"B", false⟩, RawValue.malformed] "worker" (by decide)).2.2 (by decide)

/-- C7: every ClusterData emitted by the ledger scanner has a non-empty
Workers list, and one pass preserves the invariant that every cluster
stored in any Network inside NetworkState has a non-empty Workers list —
clusters with zero online workers never reach NetworkState. -/
theorem workers_nonempty_invariant
    (rounds : List (List (String × List RawValue)))
    (env : String → TokenOutcome) (s s' : DiscoveryServer)
    (hwf : wfNetworks s.networkState.Networks)
    (hrun : runBackground env s = some s') :
    (∀ cd ∈ retrieveNetworkData rounds, cd.Workers ≠ []) ∧
    wfNetworks s'.networkState.Networks :=
  ⟨retrieveNetworkData_workers_ne_nil rounds, runBackground_wf env hrun hwf⟩

theorem workers_nonempty_invariant_witness :
    (∀ cd ∈ retrieveNetworkData
        [[("net1_WORKER_ID", [RawValue.node ⟨"w1", true⟩]),
          ("off_WORKER_ID", [RawValue.node ⟨"b", false⟩])]],
      cd.Workers ≠ []) ∧
    wfNetworks
      (⟨⟨["net1"]⟩,
        ⟨[("net1", ⟨[⟨["w1"], "worker", "net1"⟩]⟩)]⟩, 1, some [], 3⟩ :
          DiscoveryServer).networkState.Networks :=
  workers_nonempty_invariant
    [[("net1_WORKER_ID", [RawValue.node ⟨"w1", true⟩]),
      ("off_WORKER_ID", [RawValue.node ⟨"b", false⟩])]]
    (fun _ => TokenOutcome.scanned
      [[("net1_WORKER_ID", [RawValue.node ⟨"w1", true⟩]),
        ("off_WORKER_ID", [RawValue.node ⟨"b", false⟩])]])
    ⟨⟨["net1"]⟩, ⟨[]⟩, 1, some [], 3⟩
    ⟨⟨["net1"]⟩, ⟨[("net1", ⟨[⟨["w1"], "worker", "net1"⟩]⟩)]⟩, 1, some [], 3⟩
    (by simp [wfNetworks])
    (by decide)

end Explorer
